import Mathlib

/-!
Verification development for the PR review-latency metrics engine
(`src/utils/GQL_Queries/github_wrappers.py`).

The embedding is shallow: timestamps are integers (seconds since an epoch,
matching second-granularity `%Y-%m-%dT%H:%M:%SZ` timestamps), timeline
events are a sum type mirroring the `EventWrapper` subclasses, and each
`cached_property` of `PRWrapper` / method of `RepoWrapper` becomes a pure
Lean function.  Python's `round(x, 1)` is represented exactly: a value
"in hours rounded to 1 decimal" is modelled as the integer number of
TENTHS of an hour (round half to even on the exact rational), so all
metric values live in `Option Int` (`none` = Python `None`).
Python runtime failures (attribute/key errors, unrecognized event types)
are modelled with `Except`/`Option` where they can occur.
-/

namespace RepoMetrics

/-- Timestamps in seconds (UTC, second granularity as in `GH_TS_FMT`). -/
abbrev Timestamp := Int

/-- Timeline events, mirroring `PRCommentWrapper`, `PRReviewWrapper`,
`DraftWrapper`, `ReadyWrapper` from the source. -/
inductive Event where
  | comment (author : String) (created_at : Timestamp)
  | review (author : String) (created_at : Timestamp) (state : String) (comments : Nat)
  | draft (author : String) (created_at : Timestamp)
  | ready (author : String) (created_at : Timestamp)
deriving DecidableEq, Repr, Inhabited

/-- The `author` attribute shared by all event wrappers. -/
def Event.author : Event → String
  | .comment a _ => a
  | .review a _ _ _ => a
  | .draft a _ => a
  | .ready a _ => a

/-- The `created_at` attribute shared by all event wrappers. -/
def Event.created_at : Event → Timestamp
  | .comment _ t => t
  | .review _ t _ _ => t
  | .draft _ t => t
  | .ready _ t => t

/-- `isinstance(e, (PRReviewWrapper, PRCommentWrapper))`. -/
def Event.isReviewOrComment : Event → Bool
  | .comment _ _ => true
  | .review _ _ _ _ => true
  | _ => false

/-- `isinstance(e, PRReviewWrapper)`. -/
def Event.isReview : Event → Bool
  | .review _ _ _ _ => true
  | _ => false

/-- `isinstance(e, ReadyWrapper)`. -/
def Event.isReady : Event → Bool
  | .ready _ _ => true
  | _ => false

/-- `getattr(r, "state", None)`: only review wrappers carry a `state`. -/
def Event.state? : Event → Option String
  | .review _ _ s _ => some s
  | _ => none

/-- The `reviewer_teams` mapping: `{"tier1": [logins], "tier2": [logins]}`. -/
structure ReviewerTeams where
  tier1 : List String
  tier2 : List String
deriving DecidableEq, Repr

/-- `PRWrapper` fields (the `repo` back-reference is replaced by passing a
`ReviewerTeams` argument to the functions that consult it). -/
structure PRWrapper where
  number : String
  url : String
  author : String
  created_at : Timestamp
  timeline_events : List Event
  is_draft : Bool
  state : String
  changed_files : Nat
  merged_by : Option String
  merged_at : Option Timestamp
  additions : Nat
  deletions : Nat
deriving DecidableEq, Repr

/-- Ordering used by `sort(key=lambda r: r.created_at)`. -/
def byCreated (a b : Event) : Prop := a.created_at ≤ b.created_at

instance : DecidableRel byCreated := fun a b =>
  inferInstanceAs (Decidable (a.created_at ≤ b.created_at))

instance : IsTotal Event byCreated := ⟨fun a b => Int.le_total a.created_at b.created_at⟩

instance : IsTrans Event byCreated := ⟨fun _ _ _ h h2 => Int.le_trans h h2⟩

/-- Python's stable `list.sort(key=lambda r: r.created_at)`. -/
def sortByCreated (l : List Event) : List Event := List.insertionSort byCreated l

/-- `PRWrapper.reviews_and_comments`: reviews and PR comments not authored
by the PR author, sorted by creation date. -/
def reviews_and_comments (pr : PRWrapper) : List Event :=
  sortByCreated
    ((pr.timeline_events.filter Event.isReviewOrComment).filter
      (fun e => e.author ≠ pr.author))

/-- `PRWrapper.reviews_by_tier1`. -/
def reviews_by_tier1 (teams : ReviewerTeams) (pr : PRWrapper) : List Event :=
  match reviews_and_comments pr with
  | [] => []
  | _ => (reviews_and_comments pr).filter (fun r => teams.tier1.contains r.author)

/-- `PRWrapper.reviews_by_tier2`. -/
def reviews_by_tier2 (teams : ReviewerTeams) (pr : PRWrapper) : List Event :=
  match reviews_and_comments pr with
  | [] => []
  | _ => (reviews_and_comments pr).filter (fun r => teams.tier2.contains r.author)

/-- `PRWrapper.first_review`: `None` if there are no reviews. -/
def first_review (pr : PRWrapper) : Option Event :=
  (reviews_and_comments pr).head?

/-- `PRWrapper.ready_for_review`: the `ReadyWrapper` events sorted oldest
first, or a single synthetic ready event at PR creation when none exist
(the `strftime`/`strptime` round trip in the source is the identity at
second granularity). -/
def ready_for_review (pr : PRWrapper) : List Event :=
  match sortByCreated (pr.timeline_events.filter Event.isReady) with
  | [] => [Event.ready pr.author pr.created_at]
  | es => es

/-- `PRWrapper.comment_comparison_date`; `none` models the Python
`AttributeError` raised when `first_review` is `None`. -/
def comment_comparison_date (pr : PRWrapper) : Option Timestamp :=
  (first_review pr).map (fun fr =>
    if fr.created_at > ((ready_for_review pr).headI).created_at then
      ((ready_for_review pr).headI).created_at
    else
      pr.created_at)

/-- Nearest integer to `n / d` (for `d > 0`), ties to even: the rounding
performed by Python's built-in `round`. -/
def roundHalfEven (n d : Int) : Int :=
  let q := Int.fdiv n d
  let r := n - q * d
  if 2 * r < d then q
  else if d < 2 * r then q + 1
  else if q % 2 = 0 then q else q + 1

/-- `round(seconds / SECONDS_TO_HOURS, 1)`, represented exactly as an
integer count of tenths of an hour. -/
def hoursTenths (seconds : Int) : Int := roundHalfEven (seconds * 10) 3600

/-- `PRWrapper.hours_to_first_review` (in tenths of an hour). -/
def hours_to_first_review (pr : PRWrapper) : Option Int :=
  match first_review pr with
  | none => none
  | some fr =>
    if pr.is_draft then none
    else (comment_comparison_date pr).map (fun cd => hoursTenths (fr.created_at - cd))

/-- `PRWrapper.hours_to_tier1` (in tenths of an hour). -/
def hours_to_tier1 (teams : ReviewerTeams) (pr : PRWrapper) : Option Int :=
  match reviews_by_tier1 teams pr with
  | [] => none
  | r :: _ => (comment_comparison_date pr).map (fun cd => hoursTenths (r.created_at - cd))

/-- `PRWrapper.hours_to_tier2` (in tenths of an hour). -/
def hours_to_tier2 (teams : ReviewerTeams) (pr : PRWrapper) : Option Int :=
  match reviews_by_tier2 teams pr with
  | [] => none
  | r :: _ => (comment_comparison_date pr).map (fun cd => hoursTenths (r.created_at - cd))

/-- The `approved_reviews` list inside `hours_from_tier1_to_tier2`:
tier1 items whose `getattr(r, "state", None) == "APPROVED"`. -/
def approved_tier1 (teams : ReviewerTeams) (pr : PRWrapper) : List Event :=
  (reviews_by_tier1 teams pr).filter (fun r => r.state? == some "APPROVED")

/-- `PRWrapper.hours_from_tier1_to_tier2` (in tenths of an hour). -/
def hours_from_tier1_to_tier2 (teams : ReviewerTeams) (pr : PRWrapper) : Option Int :=
  match approved_tier1 teams pr, reviews_by_tier2 teams pr with
  | a :: _, t :: _ => some (hoursTenths (t.created_at - a.created_at))
  | _, _ => none

/-! ### Normalization of raw timeline nodes (`RepoWrapper.pull_requests`) -/

/-- A raw GraphQL timeline node, after JSON decoding: `authorLogin` is the
`login` under the `author` object when that object is present, `actorLogin`
likewise for `actor`. -/
structure RawEvent where
  typename : String
  authorLogin : Option String
  actorLogin : Option String
  createdAt : Timestamp
  state : Option String
  comments : Option Nat
deriving DecidableEq, Repr

/-- The four type discriminators of `EVENT_CLASS_MAP`. -/
inductive EventKind where
  | issueComment
  | pullRequestReview
  | convertToDraftEvent
  | readyForReviewEvent
deriving DecidableEq, Repr

/-- `EVENT_CLASS_MAP[e.pop("__typename")]`; `none` models the `KeyError`
on an unrecognized discriminator. -/
def eventClassMap (t : String) : Option EventKind :=
  if t = "IssueComment" then some .issueComment
  else if t = "PullRequestReview" then some .pullRequestReview
  else if t = "ConvertToDraftEvent" then some .convertToDraftEvent
  else if t = "ReadyForReviewEvent" then some .readyForReviewEvent
  else none

/-- The author standardization block:
`e["author"] = e.pop("author", {}).get("login") or e.pop("actor")["login"]`,
guarded by `if e.get("author") or e.get("actor")`.  `Except.error` models the
Python `KeyError`/`TypeError` paths. -/
def resolveAuthor (raw : RawEvent) : Except String String :=
  if raw.authorLogin.isSome || raw.actorLogin.isSome then
    match raw.authorLogin with
    | some a =>
      if a ≠ "" then .ok a
      else
        match raw.actorLogin with
        | some b => .ok b
        | none => .error "KeyError: actor"
    | none =>
      match raw.actorLogin with
      | some b => .ok b
      | none => .error "KeyError: actor"
  else .error "TypeError: author missing"

/-- One iteration of the event loop in `RepoWrapper.pull_requests`:
`Except.ok none` means the node was silently dropped (the codecov check),
`Except.error` models a raised exception. -/
def normalizeEvent (raw : RawEvent) : Except String (Option Event) :=
  if raw.authorLogin == some "codecov" then .ok none
  else
    match eventClassMap raw.typename with
    | none => .error "KeyError: unrecognized event type"
    | some k =>
      match resolveAuthor raw with
      | .error s => .error s
      | .ok a =>
        match k with
        | .issueComment => .ok (some (.comment a raw.createdAt))
        | .pullRequestReview =>
          match raw.state, raw.comments with
          | some s, some c => .ok (some (.review a raw.createdAt s c))
          | _, _ => .error "TypeError: review fields missing"
        | .convertToDraftEvent => .ok (some (.draft a raw.createdAt))
        | .readyForReviewEvent => .ok (some (.ready a raw.createdAt))

/-- The event loop over `pr_node["timelineItems"]["nodes"]`. -/
def normalizeEvents : List RawEvent → Except String (List Event)
  | [] => .ok []
  | r :: rest =>
    match normalizeEvent r with
    | .error s => .error s
    | .ok none => normalizeEvents rest
    | .ok (some e) => (normalizeEvents rest).map (fun es => e :: es)

/-- A raw PR node as returned by the GraphQL query. -/
structure RawPRNode where
  url : String
  authorLogin : String
  createdAt : Timestamp
  isDraft : Bool
  state : String
  mergedBy : Option String
  mergedAt : Option Timestamp
  changedFiles : Nat
  additions : Nat
  deletions : Nat
  timelineItems : List RawEvent
deriving DecidableEq, Repr

/-- Construction of a `PRWrapper` from a raw node and its normalized
events (`pr_num = pr_node["url"].split("/")[-1]`). -/
def mkPRWrapper (n : RawPRNode) (events : List Event) : PRWrapper where
  number := (n.url.splitOn "/").getLastD ""
  url := n.url
  author := n.authorLogin
  created_at := n.createdAt
  timeline_events := events
  is_draft := n.isDraft
  state := n.state
  changed_files := n.changedFiles
  merged_by := n.mergedBy
  merged_at := n.mergedAt
  additions := n.additions
  deletions := n.deletions

/-- The PR loop of `RepoWrapper.pull_requests`: skips PRs authored by
`pyup-bot`, normalizes each remaining node's timeline. -/
def processPRNodes : List RawPRNode → Except String (List PRWrapper)
  | [] => .ok []
  | n :: rest =>
    if n.authorLogin == "pyup-bot" then processPRNodes rest
    else
      match normalizeEvents n.timelineItems with
      | .error s => .error s
      | .ok es => (processPRNodes rest).map (fun prs => mkPRWrapper n es :: prs)

/-! ### Pagination loop of `RepoWrapper.pull_requests` -/

/-- `if block_count > count: block_count = count`. -/
def effectiveBlock (count block_count : Nat) : Nat :=
  if block_count > count then count else block_count

/-- Value of `fetched` after `n` iterations of the
`while fetched < count: ... fetched += block_count` loop. -/
def fetchedAfter (count block_count : Nat) : Nat → Nat
  | 0 => 0
  | n + 1 => fetchedAfter count block_count n + effectiveBlock count block_count

/-- The pagination loop terminates iff `fetched` ever reaches `count`. -/
def loopTerminates (count block_count : Nat) : Prop :=
  ∃ n, count ≤ fetchedAfter count block_count n

/-! ### `RepoWrapper.reviewer_team_actions` -/

/-- A per-member action list: `(timestamp, action_label)` pairs. -/
abbrev ActionList := List (Timestamp × String)

/-- A Python dict keyed by login, modelled as an insertion-ordered
association list. -/
abbrev TierMap := List (String × ActionList)

/-- Dict lookup `d[k]` (as an `Option`; first matching key). -/
def lookupTM : TierMap → String → Option ActionList
  | [], _ => none
  | p :: t, k => if p.1 = k then some p.2 else lookupTM t k

/-- Dict item assignment `d[k] = v`. -/
def setTM (m : TierMap) (k : String) (v : ActionList) : TierMap :=
  if m.any (fun p => p.1 = k) then
    m.map (fun p => if p.1 = k then (p.1, v) else p)
  else m ++ [(k, v)]

/-- `d[k].append(x)` (a no-op on a missing key; every call site in the
source appends to a key created at initialization). -/
def appendTM (m : TierMap) (k : String) (x : Timestamp × String) : TierMap :=
  m.map (fun p => if p.1 = k then (p.1, p.2 ++ [x]) else p)

/-- `{m: [] for m in v}`. -/
def initTier (members : List String) : TierMap :=
  members.foldl (fun acc m => setTM acc m []) []

/-- The per-PR body of the loop in `reviewer_team_actions`. -/
def teamActionsStep (teams : ReviewerTeams) (acc : TierMap × TierMap)
    (pr : PRWrapper) : TierMap × TierMap :=
  let t1only := (reviews_by_tier1 teams pr).filter Event.isReview
  let a1 := t1only.foldl
    (fun a r => appendTM a r.author (r.created_at, (r.state?).getD "")) acc.1
  let a1 := appendTM a1 "opened" (pr.created_at, "ready")
  let t2only := (reviews_by_tier2 teams pr).filter Event.isReview
  let a2 := t2only.foldl
    (fun a r => appendTM a r.author (r.created_at, (r.state?).getD "")) acc.2
  let a2 :=
    match pr.merged_at with
    | some m => appendTM a2 "merged" (m, "merged")
    | none => a2
  (a1, a2)

/-- `RepoWrapper.reviewer_team_actions`, over an explicit list of PRs
(the `pull_requests(...)` dict values in iteration order): the two tier
dicts are initialized with one empty list per configured member plus the
`"opened"` / `"merged"` buckets, then filled by the per-PR loop. -/
def reviewer_team_actions (teams : ReviewerTeams) (prs : List PRWrapper) :
    TierMap × TierMap :=
  prs.foldl (teamActionsStep teams)
    (setTM (initTier teams.tier1) "opened" [],
      setTM (initTier teams.tier2) "merged" [])

/-! ### Helper lemmas -/

lemma sortByCreated_sorted (l : List Event) :
    List.Sorted byCreated (sortByCreated l) :=
  List.sorted_insertionSort byCreated l

lemma sortByCreated_perm (l : List Event) : (sortByCreated l).Perm l :=
  List.perm_insertionSort byCreated l

lemma mem_sortByCreated {l : List Event} {x : Event} :
    x ∈ sortByCreated l ↔ x ∈ l :=
  List.mem_insertionSort byCreated

lemma reviews_and_comments_sorted (pr : PRWrapper) :
    List.Sorted byCreated (reviews_and_comments pr) :=
  sortByCreated_sorted _

lemma mem_reviews_and_comments {pr : PRWrapper} {e : Event} :
    e ∈ reviews_and_comments pr ↔
      e ∈ pr.timeline_events ∧ e.isReviewOrComment = true ∧ e.author ≠ pr.author := by
  unfold reviews_and_comments
  rw [mem_sortByCreated]
  constructor
  · intro h
    have h2 := List.mem_filter.mp h
    have h3 := List.mem_filter.mp h2.1
    exact ⟨h3.1, h3.2, by simpa using h2.2⟩
  · intro h
    exact List.mem_filter.mpr
      ⟨List.mem_filter.mpr ⟨h.1, h.2.1⟩, by simpa using h.2.2⟩

lemma reviews_by_tier1_eq (teams : ReviewerTeams) (pr : PRWrapper) :
    reviews_by_tier1 teams pr =
      (reviews_and_comments pr).filter (fun r => teams.tier1.contains r.author) := by
  unfold reviews_by_tier1
  cases h : reviews_and_comments pr <;> simp [h]

lemma reviews_by_tier2_eq (teams : ReviewerTeams) (pr : PRWrapper) :
    reviews_by_tier2 teams pr =
      (reviews_and_comments pr).filter (fun r => teams.tier2.contains r.author) := by
  unfold reviews_by_tier2
  cases h : reviews_and_comments pr <;> simp [h]

lemma reviews_by_tier1_sorted (teams : ReviewerTeams) (pr : PRWrapper) :
    List.Sorted byCreated (reviews_by_tier1 teams pr) := by
  rw [reviews_by_tier1_eq]
  exact (reviews_and_comments_sorted pr).filter _

lemma reviews_by_tier2_sorted (teams : ReviewerTeams) (pr : PRWrapper) :
    List.Sorted byCreated (reviews_by_tier2 teams pr) := by
  rw [reviews_by_tier2_eq]
  exact (reviews_and_comments_sorted pr).filter _

lemma approved_tier1_sorted (teams : ReviewerTeams) (pr : PRWrapper) :
    List.Sorted byCreated (approved_tier1 teams pr) :=
  (reviews_by_tier1_sorted teams pr).filter _

lemma sorted_headI_min {l : List Event} (hs : List.Sorted byCreated l) :
    ∀ e ∈ l, (l.headI).created_at ≤ e.created_at := by
  cases l with
  | nil => intro e he; cases he
  | cons a t =>
    intro e he
    rcases List.mem_cons.mp he with rfl | ht
    · simp [List.headI]
    · exact (List.sorted_cons.mp hs).1 e ht

lemma ready_for_review_sorted (pr : PRWrapper) :
    List.Sorted byCreated (ready_for_review pr) := by
  unfold ready_for_review
  cases h : sortByCreated (pr.timeline_events.filter Event.isReady) with
  | nil => simp
  | cons a t =>
    have := sortByCreated_sorted (pr.timeline_events.filter Event.isReady)
    rw [h] at this
    simpa using this

lemma first_review_eq_some {pr : PRWrapper} {fr : Event}
    (h : first_review pr = some fr) :
    ∃ t, reviews_and_comments pr = fr :: t := by
  unfold first_review at h
  cases hrc : reviews_and_comments pr with
  | nil => rw [hrc] at h; cases h
  | cons a t =>
    rw [hrc] at h
    simp at h
    exact ⟨t, by rw [h]⟩

/-! ### Claim theorems -/

/-- Claim C1: for every PR with at least one review/comment not authored by
the PR author, with first ready episode at `T1` (the head of
`ready_for_review`, which is the earliest episode) and first review at
`T2`, the comparison date equals `T1` when `T2 > T1` and equals
`PR.created_at` when `T2 <= T1`. -/
theorem claim_C1_comparison_date_rule (pr : PRWrapper) (fr : Event)
    (h : first_review pr = some fr) :
    (∀ e ∈ ready_for_review pr,
      ((ready_for_review pr).headI).created_at ≤ e.created_at) ∧
    comment_comparison_date pr =
      some (if ((ready_for_review pr).headI).created_at < fr.created_at then
              ((ready_for_review pr).headI).created_at
            else pr.created_at) := by
  constructor
  · exact sorted_headI_min (ready_for_review_sorted pr)
  · unfold comment_comparison_date
    rw [h]
    rfl

/-- Witness for C1, the end-to-end example of the spec: PR created at
`T0 = 0`, draft transition at `T0`, ready transition at `T0 + 5h`, first
comment at `T0 + 3h` (before ready): the comparison date is `T0`. -/
def c1PR : PRWrapper :=
  { number := "1", url := "u", author := "al", created_at := 0,
    timeline_events :=
      [Event.draft "al" 0, Event.ready "al" 18000, Event.comment "bob" 10800],
    is_draft := false, state := "OPEN", changed_files := 1, merged_by := none,
    merged_at := none, additions := 0, deletions := 0 }

/-- Witness for C1 at the spec's end-to-end example. -/
theorem claim_C1_witness : comment_comparison_date c1PR = some 0 := by
  have h := claim_C1_comparison_date_rule c1PR (Event.comment "bob" 10800) (by decide)
  exact h.2.trans (by decide)

/-- Claim C6: a PR currently marked draft yields `None` for
`hours_to_first_review`, regardless of review presence. -/
theorem claim_C6_draft_nulls_first_review (pr : PRWrapper)
    (h : pr.is_draft = true) : hours_to_first_review pr = none := by
  unfold hours_to_first_review
  cases first_review pr <;> simp [h]

/-- A draft PR that nonetheless has reviews (tier1 approval and a tier2
comment). -/
def c10PR : PRWrapper :=
  { number := "4", url := "u4", author := "al", created_at := 0,
    timeline_events :=
      [Event.review "t1a" 7200 "APPROVED" 0, Event.comment "t2a" 0],
    is_draft := true, state := "OPEN", changed_files := 1, merged_by := none,
    merged_at := none, additions := 0, deletions := 0 }

/-- Witness for C6: a draft PR with reviews still gets `None`. -/
theorem claim_C6_witness : hours_to_first_review c10PR = none :=
  claim_C6_draft_nulls_first_review c10PR rfl

/-- Claim C7: with no `ReadyTransition` on the timeline, the derived
ready-episode list is exactly one synthetic episode `(PR.author,
PR.created_at)`; otherwise it is the ready events sorted oldest-first
with no synthetic episode added (a permutation of exactly the ready
events). -/
theorem claim_C7_ready_episodes (pr : PRWrapper) :
    (pr.timeline_events.filter Event.isReady = [] →
      ready_for_review pr = [Event.ready pr.author pr.created_at]) ∧
    (pr.timeline_events.filter Event.isReady ≠ [] →
      (ready_for_review pr).Perm (pr.timeline_events.filter Event.isReady) ∧
      List.Sorted byCreated (ready_for_review pr)) := by
  constructor
  · intro h
    unfold ready_for_review
    rw [h]
    rfl
  · intro h
    cases heq : sortByCreated (pr.timeline_events.filter Event.isReady) with
    | nil =>
      have hp := sortByCreated_perm (pr.timeline_events.filter Event.isReady)
      rw [heq] at hp
      exact absurd hp.symm.eq_nil h
    | cons a t =>
      have hr : ready_for_review pr = a :: t := by
        unfold ready_for_review
        rw [heq]
      refine ⟨?_, ?_⟩
      · rw [hr, ← heq]
        exact sortByCreated_perm _
      · rw [hr, ← heq]
        exact sortByCreated_sorted _

/-- Witness for C7 at a PR that has a ready transition. -/
theorem claim_C7_witness :
    (ready_for_review c1PR).Perm (c1PR.timeline_events.filter Event.isReady) ∧
    List.Sorted byCreated (ready_for_review c1PR) :=
  (claim_C7_ready_episodes c1PR).2 (by decide)

/-- Claim C5: if no timeline review/comment is authored by anyone other
than the PR author, all four latency metrics are `None`. -/
theorem claim_C5_no_reviews_all_null (teams : ReviewerTeams) (pr : PRWrapper)
    (h : ∀ e ∈ pr.timeline_events,
      e.isReviewOrComment = true → e.author = pr.author) :
    hours_to_first_review pr = none ∧
    hours_to_tier1 teams pr = none ∧
    hours_to_tier2 teams pr = none ∧
    hours_from_tier1_to_tier2 teams pr = none := by
  have hrc : reviews_and_comments pr = [] := by
    unfold reviews_and_comments sortByCreated
    have hf : (pr.timeline_events.filter Event.isReviewOrComment).filter
        (fun e => e.author ≠ pr.author) = [] := by
      rw [List.filter_eq_nil_iff]
      intro a ha
      have hmem := List.mem_filter.mp ha
      simp [h a hmem.1 hmem.2]
    rw [hf]
    rfl
  have h1 : reviews_by_tier1 teams pr = [] := by
    rw [reviews_by_tier1_eq, hrc]
    rfl
  have h2 : reviews_by_tier2 teams pr = [] := by
    rw [reviews_by_tier2_eq, hrc]
    rfl
  refine ⟨?_, ?_, ?_, ?_⟩
  · unfold hours_to_first_review first_review
    rw [hrc]
    rfl
  · unfold hours_to_tier1
    rw [h1]
  · unfold hours_to_tier2
    rw [h2]
  · unfold hours_from_tier1_to_tier2 approved_tier1
    rw [h1, h2]
    rfl

/-- A PR whose only review/comment events are authored by the PR author. -/
def c5PR : PRWrapper :=
  { number := "5", url := "u5", author := "al", created_at := 0,
    timeline_events := [Event.comment "al" 100, Event.ready "al" 50],
    is_draft := false, state := "OPEN", changed_files := 1, merged_by := none,
    merged_at := none, additions := 0, deletions := 0 }

/-- Teams used by several witnesses: tier1 member `t1a`, tier2 member
`t2a`. -/
def c4Teams : ReviewerTeams := ⟨["t1a"], ["t2a"]⟩

/-- Witness for C5 at a PR with only author-authored events. -/
theorem claim_C5_witness :
    hours_to_first_review c5PR = none ∧
    hours_to_tier1 c4Teams c5PR = none ∧
    hours_to_tier2 c4Teams c5PR = none ∧
    hours_from_tier1_to_tier2 c4Teams c5PR = none :=
  claim_C5_no_reviews_all_null c4Teams c5PR (by decide)

/-- Teams putting the same login in both tiers. -/
def c2Teams : ReviewerTeams := ⟨["bob"], ["bob"]⟩

/-- A PR reviewed by `bob`, who is in both configured tiers. -/
def c2PR : PRWrapper :=
  { number := "2", url := "u2", author := "al", created_at := 0,
    timeline_events := [Event.review "bob" 100 "APPROVED" 0],
    is_draft := false, state := "OPEN", changed_files := 1, merged_by := none,
    merged_at := none, additions := 0, deletions := 0 }

/-- Counterexample to C2: a login present in both configured tiers has its
review classified in BOTH tier views — it does appear in the tier2 view,
so tier classification is not exclusive and tier1 takes no precedence. -/
theorem claim_C2_counterexample :
    Event.review "bob" 100 "APPROVED" 0 ∈ reviews_by_tier1 c2Teams c2PR ∧
    Event.review "bob" 100 "APPROVED" 0 ∈ reviews_by_tier2 c2Teams c2PR := by
  decide

/-- Claim C2 (amended): the two tier views are independent membership
filters over the review timeline: an item is in the tier1 view iff its
author is in the configured tier1 list, and in the tier2 view iff its
author is in the configured tier2 list; a login present in both lists
therefore appears in both views. -/
theorem claim_C2_amended (teams : ReviewerTeams) (pr : PRWrapper) (r : Event) :
    (r ∈ reviews_by_tier1 teams pr ↔
      r ∈ reviews_and_comments pr ∧ teams.tier1.contains r.author = true) ∧
    (r ∈ reviews_by_tier2 teams pr ↔
      r ∈ reviews_and_comments pr ∧ teams.tier2.contains r.author = true) := by
  rw [reviews_by_tier1_eq, reviews_by_tier2_eq]
  constructor <;> simp [List.mem_filter]

/-- Witness for C2 (amended): concrete both-tier membership. -/
theorem claim_C2_amended_witness :
    Event.review "bob" 100 "APPROVED" 0 ∈ reviews_by_tier2 c2Teams c2PR :=
  ((claim_C2_amended c2Teams c2PR (Event.review "bob" 100 "APPROVED" 0)).2).mpr
    ⟨by decide, by decide⟩

/-- Claim C4: `hours_from_tier1_to_tier2` is `None` iff there is no
tier1 APPROVED review or no tier2 item; otherwise it equals the earliest
tier2 item minus the earliest tier1 APPROVED review, in tenths of an
hour, un-clamped (it may be negative). -/
theorem claim_C4_tier1_to_tier2 (teams : ReviewerTeams) (pr : PRWrapper) :
    (hours_from_tier1_to_tier2 teams pr = none ↔
      approved_tier1 teams pr = [] ∨ reviews_by_tier2 teams pr = []) ∧
    (∀ a la t lt, approved_tier1 teams pr = a :: la →
      reviews_by_tier2 teams pr = t :: lt →
      hours_from_tier1_to_tier2 teams pr =
        some (hoursTenths (t.created_at - a.created_at)) ∧
      (∀ x ∈ approved_tier1 teams pr, a.created_at ≤ x.created_at) ∧
      (∀ y ∈ reviews_by_tier2 teams pr, t.created_at ≤ y.created_at)) := by
  constructor
  · cases h1 : approved_tier1 teams pr <;>
      cases h2 : reviews_by_tier2 teams pr <;>
      simp [hours_from_tier1_to_tier2, h1, h2]
  · intro a la t lt h1 h2
    refine ⟨?_, ?_, ?_⟩
    · unfold hours_from_tier1_to_tier2
      rw [h1, h2]
    · rw [h1]
      have hs := approved_tier1_sorted teams pr
      rw [h1] at hs
      exact sorted_headI_min hs
    · rw [h2]
      have hs := reviews_by_tier2_sorted teams pr
      rw [h2] at hs
      exact sorted_headI_min hs

/-- A non-draft PR with a tier1 approval at `T0 + 2h` and a tier2 comment
at `T0`: the tier2 item precedes the tier1 approval. -/
def c4PR : PRWrapper :=
  { number := "4", url := "u4", author := "al", created_at := 0,
    timeline_events :=
      [Event.review "t1a" 7200 "APPROVED" 0, Event.comment "t2a" 0],
    is_draft := false, state := "OPEN", changed_files := 1, merged_by := none,
    merged_at := none, additions := 0, deletions := 0 }

/-- Witness for C4: the gap is computed and is negative (−2.0 h, i.e.
−20 tenths), not clamped to zero. -/
theorem claim_C4_witness :
    hours_from_tier1_to_tier2 c4Teams c4PR = some (-20) ∧ (-20 : Int) < 0 := by
  have h := (claim_C4_tier1_to_tier2 c4Teams c4PR).2
    (Event.review "t1a" 7200 "APPROVED" 0) [] (Event.comment "t2a" 0) []
    (by decide) (by decide)
  exact ⟨h.1.trans (by decide), by decide⟩

/-- Claim C10: the draft-nulling rule applies only to
`hours_to_first_review`: the three tier metrics ignore `is_draft`
entirely (replacing it changes nothing), and each is numeric whenever its
tier-presence guard holds, draft or not. -/
theorem claim_C10_tier_metrics_ignore_draft (teams : ReviewerTeams)
    (pr : PRWrapper) (b : Bool) :
    hours_to_tier1 teams { pr with is_draft := b } = hours_to_tier1 teams pr ∧
    hours_to_tier2 teams { pr with is_draft := b } = hours_to_tier2 teams pr ∧
    hours_from_tier1_to_tier2 teams { pr with is_draft := b } =
      hours_from_tier1_to_tier2 teams pr ∧
    (reviews_by_tier1 teams pr ≠ [] →
      (hours_to_tier1 teams pr).isSome = true) ∧
    (reviews_by_tier2 teams pr ≠ [] →
      (hours_to_tier2 teams pr).isSome = true) ∧
    (approved_tier1 teams pr ≠ [] → reviews_by_tier2 teams pr ≠ [] →
      (hours_from_tier1_to_tier2 teams pr).isSome = true) := by
  have hccd : ∀ r, r ∈ reviews_and_comments pr → (comment_comparison_date pr).isSome = true := by
    intro r hr
    unfold comment_comparison_date first_review
    cases hrc : reviews_and_comments pr with
    | nil => rw [hrc] at hr; cases hr
    | cons a t => rfl
  refine ⟨rfl, rfl, rfl, ?_, ?_, ?_⟩
  · intro h
    unfold hours_to_tier1
    cases h1 : reviews_by_tier1 teams pr with
    | nil => exact absurd h1 h
    | cons r rest =>
      have hr : r ∈ reviews_and_comments pr := by
        have : r ∈ reviews_by_tier1 teams pr := by rw [h1]; exact List.mem_cons_self _ _
        rw [reviews_by_tier1_eq] at this
        exact (List.mem_filter.mp this).1
      have := hccd r hr
      cases hc : comment_comparison_date pr with
      | none => rw [hc] at this; cases this
      | some cd => simp [hc]
  · intro h
    unfold hours_to_tier2
    cases h2 : reviews_by_tier2 teams pr with
    | nil => exact absurd h2 h
    | cons r rest =>
      have hr : r ∈ reviews_and_comments pr := by
        have : r ∈ reviews_by_tier2 teams pr := by rw [h2]; exact List.mem_cons_self _ _
        rw [reviews_by_tier2_eq] at this
        exact (List.mem_filter.mp this).1
      have := hccd r hr
      cases hc : comment_comparison_date pr with
      | none => rw [hc] at this; cases this
      | some cd => simp [hc]
  · intro ha h2
    unfold hours_from_tier1_to_tier2
    cases h1 : approved_tier1 teams pr with
    | nil => exact absurd h1 ha
    | cons a la =>
      cases h2e : reviews_by_tier2 teams pr with
      | nil => exact absurd h2e h2
      | cons t lt => rfl

/-- Witness for C10: on the draft PR `c10PR` all three tier metrics are
numeric while the PR is draft. -/
theorem claim_C10_witness :
    (hours_to_tier1 c4Teams c10PR).isSome = true ∧
    (hours_to_tier2 c4Teams c10PR).isSome = true ∧
    (hours_from_tier1_to_tier2 c4Teams c10PR).isSome = true ∧
    c10PR.is_draft = true :=
  have h := claim_C10_tier_metrics_ignore_draft c4Teams c10PR true
  ⟨h.2.2.2.1 (by decide), h.2.2.2.2.1 (by decide),
    h.2.2.2.2.2 (by decide) (by decide), rfl⟩

/-- A raw dependency-bot comment on another author's PR. -/
def c3PyupRaw : RawEvent := ⟨"IssueComment", some "pyup-bot", none, 5, none, none⟩

/-- A raw ready-for-review event attributed (via `actor`) to the coverage
bot. -/
def c3CodecovActorRaw : RawEvent :=
  ⟨"ReadyForReviewEvent", none, some "codecov", 7, none, none⟩

/-- A raw comment whose `author` login is the coverage bot. -/
def c3CodecovAuthorRaw : RawEvent :=
  ⟨"IssueComment", some "codecov", none, 9, none, none⟩

/-- A raw PR node authored by `alice` carrying the two bot events above. -/
def c3Node : RawPRNode :=
  ⟨"https://x/pull/9", "alice", 0, false, "OPEN", none, none, 1, 0, 0,
    [c3PyupRaw, c3CodecovActorRaw]⟩

/-- Counterexample to C3: a timeline event authored by the dependency bot
on another author's PR is NOT dropped (the bot exclusion is applied to
whole PRs by PR author, not to timeline events), and an event attributed
to the coverage actor via the `actor` field is NOT dropped either (the
exclusion only inspects the `author` field); the bot comment even lands
in the derived review timeline of the processed PR. -/
theorem claim_C3_counterexample :
    normalizeEvent c3PyupRaw = Except.ok (some (Event.comment "pyup-bot" 5)) ∧
    normalizeEvent c3CodecovActorRaw =
      Except.ok (some (Event.ready "codecov" 7)) ∧
    (processPRNodes [c3Node]).map (fun l => l.map PRWrapper.timeline_events) =
      Except.ok [[Event.comment "pyup-bot" 5, Event.ready "codecov" 7]] ∧
    (processPRNodes [c3Node]).map (fun l => l.map reviews_and_comments) =
      Except.ok [[Event.comment "pyup-bot" 5]] :=
  ⟨rfl, rfl, rfl, rfl⟩

/-- Claim C3 (amended): at normalization, a timeline event is silently
dropped exactly when its `author` login is the coverage bot `codecov`;
separately, whole PRs authored by the dependency bot `pyup-bot` are
skipped, and every other PR is processed — events authored by `pyup-bot`
on other authors' PRs and events attributed to `codecov` only through the
`actor` field are retained. -/
theorem claim_C3_amended (nodes : List RawPRNode) (raw : RawEvent) :
    (normalizeEvent raw = Except.ok none ↔ raw.authorLogin = some "codecov") ∧
    processPRNodes nodes =
      processPRNodes (nodes.filter (fun n => n.authorLogin ≠ "pyup-bot")) := by
  constructor
  · constructor
    · intro h
      by_cases hc : raw.authorLogin = some "codecov"
      · exact hc
      · exfalso
        unfold normalizeEvent at h
        rw [if_neg (by simpa using hc)] at h
        cases hk : eventClassMap raw.typename with
        | none => rw [hk] at h; cases h
        | some k =>
          rw [hk] at h
          cases ha : resolveAuthor raw with
          | error s => rw [ha] at h; cases h
          | ok a =>
            rw [ha] at h
            cases k with
            | issueComment => cases h
            | pullRequestReview =>
              rcases hs : raw.state with _ | s <;>
                rcases hcm : raw.comments with _ | c <;>
                rw [hs, hcm] at h <;> simp at h
            | convertToDraftEvent => cases h
            | readyForReviewEvent => cases h
    · intro h
      unfold normalizeEvent
      rw [if_pos (by simp [h])]
  · induction nodes with
    | nil => rfl
    | cons n rest ih =>
      by_cases h : n.authorLogin = "pyup-bot"
      · have hl : processPRNodes (n :: rest) = processPRNodes rest := by
          conv_lhs => rw [processPRNodes]
          rw [if_pos (by simp [h])]
        have hfil : (n :: rest).filter (fun n => n.authorLogin ≠ "pyup-bot") =
            rest.filter (fun n => n.authorLogin ≠ "pyup-bot") := by
          simp [List.filter_cons, h]
        rw [hl, hfil]
        exact ih
      · have hr : (n :: rest).filter (fun n => n.authorLogin ≠ "pyup-bot") =
            n :: rest.filter (fun n => n.authorLogin ≠ "pyup-bot") := by
          simp [List.filter, h]
        rw [hr]
        unfold processPRNodes
        rw [if_neg (by simp [h]), if_neg (by simp [h])]
        cases he : normalizeEvents n.timelineItems with
        | error s => rfl
        | ok es => rw [ih]

/-- Witness for C3 (amended): a codecov-authored comment is dropped, and
processing skips the bot-authored PR. -/
def c3PyupNode : RawPRNode :=
  ⟨"https://x/pull/3", "pyup-bot", 0, false, "OPEN", none, none, 1, 0, 0, []⟩

/-- Witness for C3 (amended), applied at concrete inputs. -/
theorem claim_C3_amended_witness :
    normalizeEvent c3CodecovAuthorRaw = Except.ok none ∧
    processPRNodes [c3PyupNode, c3Node] =
      processPRNodes
        ([c3PyupNode, c3Node].filter (fun n => n.authorLogin ≠ "pyup-bot")) :=
  ⟨(claim_C3_amended [] c3CodecovAuthorRaw).1.mpr rfl,
    (claim_C3_amended [c3PyupNode, c3Node] c3CodecovAuthorRaw).2⟩

/-! ### C8: pagination -/

lemma fetchedAfter_eq_mul (count bc n : Nat) :
    fetchedAfter count bc n = n * effectiveBlock count bc := by
  induction n with
  | zero => simp [fetchedAfter]
  | succ k ih => rw [fetchedAfter, ih, Nat.succ_mul]

/-- Counterexample to C8: with `count = 1` and `block_count = 0` the
clamped block size stays `0`, `fetched` never advances, and the request
loop never terminates. -/
theorem claim_C8_counterexample : ¬ loopTerminates 1 0 := by
  rintro ⟨n, hn⟩
  rw [fetchedAfter_eq_mul] at hn
  simp [effectiveBlock] at hn

/-- Claim C8 (amended): the effective block size is `min(block_count,
count)`; each request advances the running counter by exactly the
effective block size (not by nodes returned); the loop terminates iff
the effective block size is positive or `count = 0` (in particular it
does NOT always terminate: `block_count = 0 < count` loops forever); and
when it terminates with a positive block size it stops at the first
iteration count whose accumulated request total reaches `count`. -/
theorem claim_C8_amended (count bc : Nat) :
    effectiveBlock count bc = min bc count ∧
    (∀ n, fetchedAfter count bc (n + 1) =
      fetchedAfter count bc n + effectiveBlock count bc) ∧
    (loopTerminates count bc ↔ 0 < effectiveBlock count bc ∨ count = 0) ∧
    (0 < effectiveBlock count bc →
      ∃ n, count ≤ fetchedAfter count bc n ∧
        ∀ m < n, fetchedAfter count bc m < count) := by
  refine ⟨?_, fun n => rfl, ?_, ?_⟩
  · unfold effectiveBlock
    rcases Nat.lt_or_ge count bc with h | h
    · rw [if_pos h, Nat.min_def, if_neg (by omega)]
    · rw [if_neg (by omega), Nat.min_def, if_pos h]
  · constructor
    · rintro ⟨n, hn⟩
      rw [fetchedAfter_eq_mul] at hn
      rcases Nat.eq_zero_or_pos (effectiveBlock count bc) with h | h
      · right
        rw [h, Nat.mul_zero] at hn
        omega
      · left; exact h
    · rintro (h | h)
      · exact ⟨count, by rw [fetchedAfter_eq_mul]; exact Nat.le_mul_of_pos_right count h⟩
      · exact ⟨0, by omega⟩
  · intro h
    have hex : ∃ n, count ≤ fetchedAfter count bc n :=
      ⟨count, by rw [fetchedAfter_eq_mul]; exact Nat.le_mul_of_pos_right count h⟩
    exact ⟨Nat.find hex, Nat.find_spec hex,
      fun m hm => Nat.lt_of_not_le (Nat.find_min hex hm)⟩

/-- Witness for C8 (amended) at the default arguments `count = 100`,
`block_count = 50`. -/
theorem claim_C8_amended_witness :
    effectiveBlock 100 50 = min 50 100 ∧ loopTerminates 100 50 :=
  ⟨(claim_C8_amended 100 50).1,
    ((claim_C8_amended 100 50).2.2.1).mpr (Or.inl (by decide))⟩

/-! ### C9: team-action aggregation lemmas -/

lemma lookupTM_appendTM_ne (m : TierMap) (k k2 : String) (x : Timestamp × String)
    (h : k2 ≠ k) : lookupTM (appendTM m k x) k2 = lookupTM m k2 := by
  induction m with
  | nil => rfl
  | cons p t ih =>
    simp only [appendTM] at ih ⊢
    rw [List.map_cons]
    by_cases h1 : p.1 = k
    · have h2 : p.1 ≠ k2 := by
        intro hh
        rw [hh] at h1
        exact h h1
      simp [lookupTM, h1, h2, Ne.symm h, ih]
    · by_cases h2 : p.1 = k2
      · simp [lookupTM, h1, h2, h]
      · simp [lookupTM, h1, h2, ih]

lemma lookupTM_appendTM_eq (m : TierMap) (k : String) (x : Timestamp × String) :
    lookupTM (appendTM m k x) k = (lookupTM m k).map (fun l => l ++ [x]) := by
  induction m with
  | nil => rfl
  | cons p t ih =>
    simp only [appendTM] at ih ⊢
    rw [List.map_cons]
    by_cases h1 : p.1 = k
    · simp [lookupTM, h1]
    · simp [lookupTM, h1, ih]

lemma lookupTM_appendTM_isSome (m : TierMap) (k k2 : String)
    (x : Timestamp × String) :
    (lookupTM (appendTM m k x) k2).isSome = (lookupTM m k2).isSome := by
  by_cases h : k2 = k
  · rw [h, lookupTM_appendTM_eq]
    cases lookupTM m k <;> rfl
  · rw [lookupTM_appendTM_ne m k k2 x h]

lemma lookupTM_mapSet_ne (m : TierMap) (k k2 : String) (v : ActionList)
    (h : k2 ≠ k) :
    lookupTM (m.map (fun p => if p.1 = k then (p.1, v) else p)) k2 =
      lookupTM m k2 := by
  induction m with
  | nil => rfl
  | cons p t ih =>
    rw [List.map_cons]
    by_cases h1 : p.1 = k
    · have h2 : p.1 ≠ k2 := by
        intro hh
        rw [hh] at h1
        exact h h1
      simp [lookupTM, h1, h2, Ne.symm h, ih]
    · by_cases h2 : p.1 = k2
      · simp [lookupTM, h1, h2, h]
      · simp [lookupTM, h1, h2, ih]

lemma lookupTM_mapSet_eq (m : TierMap) (k : String) (v : ActionList)
    (hany : m.any (fun p => p.1 = k) = true) :
    lookupTM (m.map (fun p => if p.1 = k then (p.1, v) else p)) k = some v := by
  induction m with
  | nil => cases hany
  | cons p t ih =>
    rw [List.map_cons]
    by_cases h1 : p.1 = k
    · simp [lookupTM, h1]
    · have ht : t.any (fun p => p.1 = k) = true := by
        rcases List.any_eq_true.mp hany with ⟨q, hq, hqk⟩
        rcases List.mem_cons.mp hq with rfl | hqt
        · exact absurd (by simpa using hqk) h1
        · exact List.any_eq_true.mpr ⟨q, hqt, hqk⟩
      simp [lookupTM, h1, ih ht]

lemma lookupTM_append_single_ne (m : TierMap) (k k2 : String) (v : ActionList)
    (h : k2 ≠ k) : lookupTM (m ++ [(k, v)]) k2 = lookupTM m k2 := by
  induction m with
  | nil => simp [lookupTM, fun hh => h (by simpa using hh : k2 = k), Ne.symm h]
  | cons p t ih =>
    rw [List.cons_append]
    by_cases h1 : p.1 = k2
    · simp [lookupTM, h1]
    · simp [lookupTM, h1, ih]

lemma lookupTM_setTM_eq (m : TierMap) (k : String) (v : ActionList) :
    lookupTM (setTM m k v) k = some v := by
  unfold setTM
  by_cases hany : m.any (fun p => p.1 = k) = true
  · rw [if_pos hany]
    exact lookupTM_mapSet_eq m k v hany
  · rw [if_neg hany]
    induction m with
    | nil => simp [lookupTM]
    | cons p t ih =>
      have h1 : p.1 ≠ k := by
        intro hh
        exact hany (List.any_eq_true.mpr ⟨p, List.mem_cons_self _ _, by simpa using hh⟩)
      have ht : ¬ t.any (fun p => p.1 = k) = true := by
        intro hh
        rcases List.any_eq_true.mp hh with ⟨q, hq, hqk⟩
        exact hany (List.any_eq_true.mpr ⟨q, List.mem_cons_of_mem _ hq, hqk⟩)
      rw [List.cons_append]
      simp [lookupTM, h1, ih ht]

lemma lookupTM_setTM_ne (m : TierMap) (k k2 : String) (v : ActionList)
    (h : k2 ≠ k) : lookupTM (setTM m k v) k2 = lookupTM m k2 := by
  unfold setTM
  by_cases hany : m.any (fun p => p.1 = k) = true
  · rw [if_pos hany]
    exact lookupTM_mapSet_ne m k k2 v h
  · rw [if_neg hany]
    exact lookupTM_append_single_ne m k k2 v h

lemma lookupTM_initTier_aux (ms : List String) (acc : TierMap) (k : String) :
    lookupTM (ms.foldl (fun a m => setTM a m []) acc) k =
      if k ∈ ms then some [] else lookupTM acc k := by
  induction ms generalizing acc with
  | nil => simp
  | cons m t ih =>
    rw [List.foldl_cons, ih]
    by_cases hm : k ∈ t
    · simp [hm, List.mem_cons]
    · by_cases hk : k = m
      · subst hk
        simp [hm, lookupTM_setTM_eq]
      · simp [hm, hk, List.mem_cons, lookupTM_setTM_ne acc m k [] hk]

lemma lookupTM_initTier (ms : List String) (k : String) :
    lookupTM (initTier ms) k = if k ∈ ms then some [] else none := by
  unfold initTier
  rw [lookupTM_initTier_aux]
  by_cases h : k ∈ ms <;> simp [h, lookupTM]

lemma lookupTM_foldl_events_ne (rs : List Event) (acc : TierMap) (k : String)
    (h : ∀ r ∈ rs, r.author ≠ k) :
    lookupTM (rs.foldl
      (fun a r => appendTM a r.author (r.created_at, (r.state?).getD "")) acc) k =
      lookupTM acc k := by
  induction rs generalizing acc with
  | nil => rfl
  | cons r t ih =>
    rw [List.foldl_cons, ih _ (fun x hx => h x (List.mem_cons_of_mem _ hx))]
    exact lookupTM_appendTM_ne acc r.author k _
      (Ne.symm (h r (List.mem_cons_self _ _)))

lemma lookupTM_foldl_events_isSome (rs : List Event) (acc : TierMap)
    (k : String) :
    (lookupTM (rs.foldl
      (fun a r => appendTM a r.author (r.created_at, (r.state?).getD "")) acc) k).isSome =
      (lookupTM acc k).isSome := by
  induction rs generalizing acc with
  | nil => rfl
  | cons r t ih =>
    rw [List.foldl_cons, ih]
    exact lookupTM_appendTM_isSome acc r.author k _

lemma step_fst_isSome (teams : ReviewerTeams) (acc : TierMap × TierMap)
    (pr : PRWrapper) (k : String) :
    (lookupTM (teamActionsStep teams acc pr).1 k).isSome =
      (lookupTM acc.1 k).isSome := by
  simp only [teamActionsStep]
  rw [lookupTM_appendTM_isSome, lookupTM_foldl_events_isSome]

lemma step_snd_isSome (teams : ReviewerTeams) (acc : TierMap × TierMap)
    (pr : PRWrapper) (k : String) :
    (lookupTM (teamActionsStep teams acc pr).2 k).isSome =
      (lookupTM acc.2 k).isSome := by
  simp only [teamActionsStep]
  cases hm : pr.merged_at with
  | none => rw [lookupTM_foldl_events_isSome]
  | some m => rw [lookupTM_appendTM_isSome, lookupTM_foldl_events_isSome]

lemma fold_fst_isSome (teams : ReviewerTeams) (prs : List PRWrapper)
    (acc : TierMap × TierMap) (k : String) :
    (lookupTM (prs.foldl (teamActionsStep teams) acc).1 k).isSome =
      (lookupTM acc.1 k).isSome := by
  induction prs generalizing acc with
  | nil => rfl
  | cons pr t ih =>
    rw [List.foldl_cons, ih]
    exact step_fst_isSome teams acc pr k

lemma fold_snd_isSome (teams : ReviewerTeams) (prs : List PRWrapper)
    (acc : TierMap × TierMap) (k : String) :
    (lookupTM (prs.foldl (teamActionsStep teams) acc).2 k).isSome =
      (lookupTM acc.2 k).isSome := by
  induction prs generalizing acc with
  | nil => rfl
  | cons pr t ih =>
    rw [List.foldl_cons, ih]
    exact step_snd_isSome teams acc pr k

lemma author_mem_tier1 {teams : ReviewerTeams} {pr : PRWrapper} {r : Event}
    (h : r ∈ reviews_by_tier1 teams pr) : r.author ∈ teams.tier1 := by
  rw [reviews_by_tier1_eq] at h
  have hc := (List.mem_filter.mp h).2
  simpa using hc

lemma author_mem_tier2 {teams : ReviewerTeams} {pr : PRWrapper} {r : Event}
    (h : r ∈ reviews_by_tier2 teams pr) : r.author ∈ teams.tier2 := by
  rw [reviews_by_tier2_eq] at h
  have hc := (List.mem_filter.mp h).2
  simpa using hc

lemma fold_fst_unchanged (teams : ReviewerTeams) (prs : List PRWrapper)
    (acc : TierMap × TierMap) (k : String) (hk : k ≠ "opened")
    (hact : ∀ pr ∈ prs,
      ∀ r ∈ (reviews_by_tier1 teams pr).filter Event.isReview, r.author ≠ k) :
    lookupTM (prs.foldl (teamActionsStep teams) acc).1 k = lookupTM acc.1 k := by
  induction prs generalizing acc with
  | nil => rfl
  | cons pr t ih =>
    rw [List.foldl_cons,
      ih _ (fun p hp => hact p (List.mem_cons_of_mem _ hp))]
    simp only [teamActionsStep]
    rw [lookupTM_appendTM_ne _ _ _ _ hk]
    exact lookupTM_foldl_events_ne _ _ _
      (fun r hr => hact pr (List.mem_cons_self _ _) r hr)

lemma fold_snd_unchanged (teams : ReviewerTeams) (prs : List PRWrapper)
    (acc : TierMap × TierMap) (k : String) (hk : k ≠ "merged")
    (hact : ∀ pr ∈ prs,
      ∀ r ∈ (reviews_by_tier2 teams pr).filter Event.isReview, r.author ≠ k) :
    lookupTM (prs.foldl (teamActionsStep teams) acc).2 k = lookupTM acc.2 k := by
  induction prs generalizing acc with
  | nil => rfl
  | cons pr t ih =>
    rw [List.foldl_cons,
      ih _ (fun p hp => hact p (List.mem_cons_of_mem _ hp))]
    simp only [teamActionsStep]
    cases hm : pr.merged_at with
    | none =>
      exact lookupTM_foldl_events_ne _ _ _
        (fun r hr => hact pr (List.mem_cons_self _ _) r hr)
    | some m =>
      rw [lookupTM_appendTM_ne _ _ _ _ hk]
      exact lookupTM_foldl_events_ne _ _ _
        (fun r hr => hact pr (List.mem_cons_self _ _) r hr)

lemma fold_opened (teams : ReviewerTeams) (h1 : "opened" ∉ teams.tier1)
    (prs : List PRWrapper) (acc : TierMap × TierMap) :
    lookupTM (prs.foldl (teamActionsStep teams) acc).1 "opened" =
      (lookupTM acc.1 "opened").map
        (fun l => l ++ prs.map (fun pr => (pr.created_at, "ready"))) := by
  induction prs generalizing acc with
  | nil => cases h : lookupTM acc.1 "opened" <;> simp [h]
  | cons pr t ih =>
    rw [List.foldl_cons, ih]
    have hstep : lookupTM (teamActionsStep teams acc pr).1 "opened" =
        (lookupTM acc.1 "opened").map
          (fun l => l ++ [(pr.created_at, "ready")]) := by
      simp only [teamActionsStep]
      rw [lookupTM_appendTM_eq]
      congr 1
      refine lookupTM_foldl_events_ne _ _ _ (fun r hr => ?_)
      have hm := author_mem_tier1 (List.mem_filter.mp hr).1
      intro hh
      rw [hh] at hm
      exact h1 hm
    rw [hstep]
    cases h : lookupTM acc.1 "opened" <;> simp [h]

lemma fold_merged (teams : ReviewerTeams) (h2 : "merged" ∉ teams.tier2)
    (prs : List PRWrapper) (acc : TierMap × TierMap) :
    lookupTM (prs.foldl (teamActionsStep teams) acc).2 "merged" =
      (lookupTM acc.2 "merged").map
        (fun l => l ++ prs.filterMap
          (fun pr => pr.merged_at.map (fun ts => (ts, "merged")))) := by
  induction prs generalizing acc with
  | nil => cases h : lookupTM acc.2 "merged" <;> simp [h]
  | cons pr t ih =>
    rw [List.foldl_cons, ih]
    have hne : ∀ r ∈ (reviews_by_tier2 teams pr).filter Event.isReview,
        r.author ≠ "merged" := by
      intro r hr hh
      have hm := author_mem_tier2 (List.mem_filter.mp hr).1
      rw [hh] at hm
      exact h2 hm
    cases hm : pr.merged_at with
    | none =>
      have hstep : lookupTM (teamActionsStep teams acc pr).2 "merged" =
          lookupTM acc.2 "merged" := by
        simp only [teamActionsStep]
        rw [hm]
        exact lookupTM_foldl_events_ne _ _ _ hne
      rw [hstep]
      cases h : lookupTM acc.2 "merged" <;> simp [h, List.filterMap_cons, hm]
    | some ts =>
      have hstep : lookupTM (teamActionsStep teams acc pr).2 "merged" =
          (lookupTM acc.2 "merged").map (fun l => l ++ [(ts, "merged")]) := by
        simp only [teamActionsStep]
        rw [hm, lookupTM_appendTM_eq]
        congr 1
        exact lookupTM_foldl_events_ne _ _ _ hne
      rw [hstep]
      cases h : lookupTM acc.2 "merged" <;> simp [h, List.filterMap_cons, hm]

/-- A team configuration whose tier1 list contains the reserved bucket
name `opened`. -/
def c9Teams : ReviewerTeams := ⟨["opened"], ["x"]⟩

/-- A PR with no review activity at all, created at `t = 42`. -/
def c9PR : PRWrapper :=
  { number := "7", url := "u7", author := "al", created_at := 42,
    timeline_events := [], is_draft := false, state := "OPEN",
    changed_files := 1, merged_by := none, merged_at := none,
    additions := 0, deletions := 0 }

/-- Counterexample to C9: when a configured tier1 member is literally
named `opened`, that member has no recorded review action on the analyzed
PR, yet its entry is the non-empty synthetic `opened` bucket rather than
the empty list the claim requires. -/
theorem claim_C9_counterexample :
    "opened" ∈ c9Teams.tier1 ∧
    ((reviews_by_tier1 c9Teams c9PR).filter Event.isReview = []) ∧
    lookupTM (reviewer_team_actions c9Teams [c9PR]).1 "opened" =
      some [(42, "ready")] := by
  decide

/-- Claim C9 (amended): provided no configured member is named after the
reserved bucket names (`opened` in tier1, `merged` in tier2), the
aggregation output has a key for every configured member of each tier;
a member with no recorded review action anywhere maps to the empty list
(never a missing key); the `opened` bucket under tier1 holds exactly one
`(created_at, "ready")` entry per analyzed PR, and the `merged` bucket
under tier2 exactly one `(merged_at, "merged")` entry per merged PR. -/
theorem claim_C9_team_actions (teams : ReviewerTeams) (prs : List PRWrapper)
    (h1 : "opened" ∉ teams.tier1) (h2 : "merged" ∉ teams.tier2) :
    (∀ m ∈ teams.tier1,
      ∃ l, lookupTM (reviewer_team_actions teams prs).1 m = some l) ∧
    (∀ m ∈ teams.tier2,
      ∃ l, lookupTM (reviewer_team_actions teams prs).2 m = some l) ∧
    (∀ m ∈ teams.tier1,
      (∀ pr ∈ prs,
        ∀ r ∈ (reviews_by_tier1 teams pr).filter Event.isReview, r.author ≠ m) →
      lookupTM (reviewer_team_actions teams prs).1 m = some []) ∧
    (∀ m ∈ teams.tier2,
      (∀ pr ∈ prs,
        ∀ r ∈ (reviews_by_tier2 teams pr).filter Event.isReview, r.author ≠ m) →
      lookupTM (reviewer_team_actions teams prs).2 m = some []) ∧
    lookupTM (reviewer_team_actions teams prs).1 "opened" =
      some (prs.map (fun pr => (pr.created_at, "ready"))) ∧
    lookupTM (reviewer_team_actions teams prs).2 "merged" =
      some (prs.filterMap
        (fun pr => pr.merged_at.map (fun ts => (ts, "merged")))) := by
  have hm1 : ∀ m ∈ teams.tier1,
      lookupTM (setTM (initTier teams.tier1) "opened" []) m = some [] := by
    intro m hm
    have hne : m ≠ "opened" := fun hh => h1 (hh ▸ hm)
    rw [lookupTM_setTM_ne _ _ _ _ hne, lookupTM_initTier]
    rw [if_pos hm]
  have hm2 : ∀ m ∈ teams.tier2,
      lookupTM (setTM (initTier teams.tier2) "merged" []) m = some [] := by
    intro m hm
    have hne : m ≠ "merged" := fun hh => h2 (hh ▸ hm)
    rw [lookupTM_setTM_ne _ _ _ _ hne, lookupTM_initTier]
    rw [if_pos hm]
  refine ⟨?_, ?_, ?_, ?_, ?_, ?_⟩
  · intro m hm
    rw [← Option.isSome_iff_exists]
    unfold reviewer_team_actions
    rw [fold_fst_isSome]
    simp [hm1 m hm]
  · intro m hm
    rw [← Option.isSome_iff_exists]
    unfold reviewer_team_actions
    rw [fold_snd_isSome]
    simp [hm2 m hm]
  · intro m hm hact
    have hne : m ≠ "opened" := fun hh => h1 (hh ▸ hm)
    unfold reviewer_team_actions
    rw [fold_fst_unchanged teams prs _ m hne hact]
    exact hm1 m hm
  · intro m hm hact
    have hne : m ≠ "merged" := fun hh => h2 (hh ▸ hm)
    unfold reviewer_team_actions
    rw [fold_snd_unchanged teams prs _ m hne hact]
    exact hm2 m hm
  · unfold reviewer_team_actions
    rw [fold_opened teams h1]
    rw [lookupTM_setTM_eq]
    simp
  · unfold reviewer_team_actions
    rw [fold_merged teams h2]
    rw [lookupTM_setTM_eq]
    simp

/-- A conflict-free team configuration for the C9 witness. -/
def c9bTeams : ReviewerTeams := ⟨["a1", "a2"], ["b1"]⟩

/-- A merged PR with one tier1 review and one tier2 review for the C9
witness; member `a2` performs no action. -/
def c9bPR : PRWrapper :=
  { number := "8", url := "u8", author := "al", created_at := 0,
    timeline_events :=
      [Event.review "a1" 10 "APPROVED" 0, Event.review "b1" 20 "COMMENTED" 1],
    is_draft := false, state := "MERGED", changed_files := 1,
    merged_by := some "b1", merged_at := some 99,
    additions := 0, deletions := 0 }

/-- Witness for C9 (amended), applied at a concrete configuration: the
idle member `a2` keeps an empty entry, and the `opened` and `merged`
buckets hold one entry for the single analyzed (merged) PR. -/
theorem claim_C9_witness :
    lookupTM (reviewer_team_actions c9bTeams [c9bPR]).1 "a2" = some [] ∧
    lookupTM (reviewer_team_actions c9bTeams [c9bPR]).1 "opened" =
      some [(0, "ready")] ∧
    lookupTM (reviewer_team_actions c9bTeams [c9bPR]).2 "merged" =
      some [(99, "merged")] := by
  have h := claim_C9_team_actions c9bTeams [c9bPR] (by decide) (by decide)
  refine ⟨h.2.2.1 "a2" (by decide) (by decide), ?_, ?_⟩
  · exact (h.2.2.2.2.1).trans (by decide)
  · exact (h.2.2.2.2.2).trans (by decide)

end RepoMetrics
